import Mathlib

/-!
Shallow embedding of `src/main.py` (a MySQL-to-S3 backup script) and proofs
about its stages: `dump_database`, `upload_to_s3`, `delete_old_backups`, and
the orchestrator `perform_backup`.

External effects (the `mysqldump` subprocess, the zip library, the boto3 S3
client, the local filesystem and the wall clock) are modelled explicitly:
the filesystem is an association list of paths to file contents, the S3
client is an oracle environment saying which calls succeed, and S3 calls are
recorded as an event trace.  Python exceptions are modelled with `Except`:
each `*_try` function is the body of the corresponding `try:` block, and the
public function is the `try/except` wrapper around it.
-/

namespace MysqlBackup

/-- A naive Python `datetime` (no timezone): the fields compared by
`datetime.__lt__`, which orders datetimes lexicographically by
(year, month, day, hour, minute, second). Microseconds are always 0 here
because `strptime` with `%Y-%m-%dT%H:%M:%S` never produces them. -/
structure DateTime where
  year : Nat
  month : Nat
  day : Nat
  hour : Nat
  minute : Nat
  second : Nat
deriving DecidableEq

/-- A timezone-aware Python `datetime`, as returned in `LastModified` by
`list_objects_v2`: wall-clock fields plus a timezone annotation. -/
structure AwareTime where
  wallClock : DateTime
  utcOffsetMinutes : Option Int
deriving DecidableEq

/-- `dt.replace(tzinfo=None)`: keeps the wall-clock fields, drops the
timezone annotation. -/
def stripTz (t : AwareTime) : DateTime := t.wallClock

/-- Python `datetime < datetime`: lexicographic on the fields. -/
def dtLt (a b : DateTime) : Bool :=
  if a.year ≠ b.year then decide (a.year < b.year)
  else if a.month ≠ b.month then decide (a.month < b.month)
  else if a.day ≠ b.day then decide (a.day < b.day)
  else if a.hour ≠ b.hour then decide (a.hour < b.hour)
  else if a.minute ≠ b.minute then decide (a.minute < b.minute)
  else decide (a.second < b.second)

/-- Gregorian leap year, as in Python's `calendar.isleap` /
`datetime`'s day validation. -/
def isLeapYear (y : Nat) : Bool :=
  y % 4 = 0 && (y % 100 ≠ 0 || y % 400 = 0)

/-- Number of days in a month, as validated by the `datetime` constructor. -/
def daysInMonth (y m : Nat) : Nat :=
  if m = 2 then (if isLeapYear y then 29 else 28)
  else if m = 4 || m = 6 || m = 9 || m = 11 then 30
  else 31

/-- Days since 1970-01-01 of a civil date (proleptic Gregorian), the
day-count underlying `datetime - timedelta(days=n)`. -/
def daysFromCivil (y m d : Int) : Int :=
  let y' := if m ≤ 2 then y - 1 else y
  let era := Int.fdiv y' 400
  let yoe := y' - era * 400
  let mp := Int.fmod (m + 9) 12
  let doy := Int.fdiv (153 * mp + 2) 5 + d - 1
  let doe := yoe * 365 + Int.fdiv yoe 4 - Int.fdiv yoe 100 + doy
  era * 146097 + doe - 719468

/-- Civil date (year, month, day) of a days-since-1970-01-01 count. -/
def civilFromDays (z0 : Int) : Int × Int × Int :=
  let z := z0 + 719468
  let era := Int.fdiv z 146097
  let doe := z - era * 146097
  let yoe :=
    Int.fdiv (doe - Int.fdiv doe 1460 + Int.fdiv doe 36524 - Int.fdiv doe 146096) 365
  let y := yoe + era * 400
  let doy := doe - (365 * yoe + Int.fdiv yoe 4 - Int.fdiv yoe 100)
  let mp := Int.fdiv (5 * doy + 2) 153
  let d := doy - Int.fdiv (153 * mp + 2) 5 + 1
  let m := if mp < 10 then mp + 3 else mp - 9
  (if m ≤ 2 then y + 1 else y, m, d)

/-- `t - timedelta(days=n)`: shifts the civil date by `n` days, keeping the
time of day. -/
def subDays (t : DateTime) (n : Nat) : DateTime :=
  let z := daysFromCivil (Int.ofNat t.year) (Int.ofNat t.month) (Int.ofNat t.day) - Int.ofNat n
  let ymd := civilFromDays z
  ⟨ymd.1.toNat, ymd.2.1.toNat, ymd.2.2.toNat, t.hour, t.minute, t.second⟩

/-- Line 99 of `main.py`: `retention_date = datetime.now() - timedelta(days=14)`. -/
def retentionDate (now : DateTime) : DateTime := subDays now 14

/-! ### `strftime` with format `"%Y-%m-%dT%H:%M:%S"` (`LOCAL_DATE_FORMAT`) -/

/-- The decimal digit character for `n ≤ 9`. -/
def digitChar (n : Nat) : Char := Char.ofNat (48 + n)

/-- Decimal digits of `n`, most significant first, with enough fuel for the
recursion to be structural (`n` has at most `n + 1` digits). -/
def natDigitsAux : Nat → Nat → List Char
  | 0, _ => []
  | fuel + 1, n =>
    if n < 10 then [digitChar n]
    else natDigitsAux fuel (n / 10) ++ [digitChar (n % 10)]

/-- Decimal digits of `n`, most significant first. -/
def natDigits (n : Nat) : List Char := natDigitsAux (n + 1) n

/-- Decimal representation of a natural number. -/
def natStr (n : Nat) : String := ⟨natDigits n⟩

/-- `strftime` zero-padded two-digit field (`%m`, `%d`, `%H`, `%M`, `%S`). -/
def pad2 (n : Nat) : String := if n < 10 then "0" ++ natStr n else natStr n

/-- `strftime` zero-padded four-digit year field (`%Y`). -/
def pad4 (n : Nat) : String :=
  if n < 10 then "000" ++ natStr n
  else if n < 100 then "00" ++ natStr n
  else if n < 1000 then "0" ++ natStr n
  else natStr n

/-- `t.strftime("%Y-%m-%dT%H:%M:%S")`. -/
def formatDT (t : DateTime) : String :=
  pad4 t.year ++ "-" ++ pad2 t.month ++ "-" ++ pad2 t.day ++ "T" ++
    pad2 t.hour ++ ":" ++ pad2 t.minute ++ ":" ++ pad2 t.second

/-! ### `strptime` with format `"%Y-%m-%dT%H:%M:%S"`

CPython's `_strptime` compiles the format into a regex (with `re.IGNORECASE`,
so the literal `T` also matches `t`): `%Y` matches exactly four digits, the
two-digit directives match greedily one or two digits with their valid
ranges baked into the alternation, the whole string must be consumed, and
the `datetime` constructor then validates the field ranges (raising on
e.g. Feb 30, hour 24 or second 61).  Because every field here is followed
by a non-digit literal (or the end of input), the greedy two-digit match
never needs to backtrack, so the regex is equivalent to: take two digits if
the next two characters are digits, else one, then validate ranges. -/

/-- The numeric value of a digit character, if it is one. -/
def digit? (c : Char) : Option Nat :=
  if c.isDigit then some (c.toNat - 48) else none

/-- Parse exactly four digits (`%Y`). -/
def parse4 : List Char → Option (Nat × List Char)
  | a :: b :: c :: d :: rest =>
    (digit? a).bind fun x =>
      (digit? b).bind fun y =>
        (digit? c).bind fun z =>
          (digit? d).bind fun w =>
            some (((x * 10 + y) * 10 + z) * 10 + w, rest)
  | _ => none

/-- Parse one or two digits, greedily (the two-digit directives). -/
def parse12 : List Char → Option (Nat × List Char)
  | [] => none
  | [a] =>
    match digit? a with
    | some x => some (x, [])
    | none => none
  | a :: b :: rest =>
    match digit? a with
    | none => none
    | some x =>
      match digit? b with
      | some y => some (10 * x + y, rest)
      | none => some (x, b :: rest)

/-- Consume one expected literal character. -/
def expectChar (c : Char) : List Char → Option (List Char)
  | x :: rest => if x = c then some rest else none
  | [] => none

/-- Consume the literal `T`; `re.IGNORECASE` makes `t` match too. -/
def expectT : List Char → Option (List Char)
  | x :: rest => if x = 'T' ∨ x = 't' then some rest else none
  | [] => none

/-- Field validation done by the `datetime` constructor (year 1..9999,
month 1..12, day 1..days-in-month, hour ≤ 23, minute ≤ 59, second ≤ 59). -/
def validFields (y mo d h mi s : Nat) : Bool :=
  1 ≤ y && y ≤ 9999 && 1 ≤ mo && mo ≤ 12 && 1 ≤ d && d ≤ daysInMonth y mo &&
    h ≤ 23 && mi ≤ 59 && s ≤ 59

/-- `datetime.strptime(s, "%Y-%m-%dT%H:%M:%S")`, returning `none` where
Python raises (regex mismatch, leftover input, or constructor validation). -/
def strptimeLocal (s : String) : Option DateTime :=
  match parse4 s.data with
  | none => none
  | some (y, r1) =>
  match expectChar '-' r1 with
  | none => none
  | some r2 =>
  match parse12 r2 with
  | none => none
  | some (mo, r3) =>
  match expectChar '-' r3 with
  | none => none
  | some r4 =>
  match parse12 r4 with
  | none => none
  | some (d, r5) =>
  match expectT r5 with
  | none => none
  | some r6 =>
  match parse12 r6 with
  | none => none
  | some (h, r7) =>
  match expectChar ':' r7 with
  | none => none
  | some r8 =>
  match parse12 r8 with
  | none => none
  | some (mi, r9) =>
  match expectChar ':' r9 with
  | none => none
  | some r10 =>
  match parse12 r10 with
  | none => none
  | some (s', r11) =>
  if r11.isEmpty && validFields y mo d h mi s' then
    some ⟨y, mo, d, h, mi, s'⟩
  else
    none

/-! ### String helpers: `os.path` and `str.split` / `str.replace` -/

/-- The suffix of `cs` after its last occurrence of `sep` (the whole list
when `sep` does not occur): the semantics of both Python's
`s.split(sep)[-1]` and, with `sep = '/'`, `os.path.basename`. -/
def afterLast (sep : Char) (cs : List Char) : List Char :=
  cs.foldl (fun acc c => if c = sep then [] else acc ++ [c]) []

/-- `os.path.basename` (POSIX): everything after the last `/`. -/
def basename (p : String) : String := ⟨afterLast '/' p.data⟩

/-- Does the string start with `/`? (`b.startswith(sep)` in `posixpath.join`). -/
def startsWithSlash (s : String) : Bool :=
  match s.data with
  | [] => false
  | c :: _ => c == '/'

/-- Does the string end with `/`? (`path.endswith(sep)` in `posixpath.join`). -/
def endsWithSlash (s : String) : Bool :=
  match s.data.getLast? with
  | some c => c == '/'
  | none => false

/-- Two-argument `os.path.join` (POSIX): `b` absolute wins; otherwise join
with a `/` unless `a` is empty or already ends with one. -/
def pathJoin (a b : String) : String :=
  if startsWithSlash b = true then b
  else if a = "" ∨ endsWithSlash a = true then a ++ b
  else a ++ "/" ++ b

/-- `s.replace(".sql.zip", "")` on the character list: removes every
(leftmost-first, non-overlapping) occurrence of `".sql.zip"`. -/
def removeSqlZip : List Char → List Char
  | '.' :: 's' :: 'q' :: 'l' :: '.' :: 'z' :: 'i' :: 'p' :: rest => removeSqlZip rest
  | c :: cs => c :: removeSqlZip cs
  | [] => []

/-- Lines 110 of `main.py`:
`obj["Key"].split("_")[-1].replace(".sql.zip", "")` — the candidate
timestamp string extracted from a remote key. -/
def tsCandidate (key : String) : String :=
  ⟨removeSqlZip (afterLast '_' key.data)⟩

/-! ### Local filesystem model -/

/-- Contents of a local file: either the raw SQL written by the shell
redirection of the `mysqldump` command, or a zip archive with its list of
entry names (`zipf.write(path, arcname)` adds the entry `arcname`). -/
inductive FileContent where
  | dump (db : String)
  | archive (entries : List String)
deriving DecidableEq

/-- The local filesystem: an association list from paths to contents
(first match wins; the operations below keep keys distinct). -/
abbrev FS := List (String × FileContent)

/-- Look up a path. -/
def fsLookup (fs : FS) (p : String) : Option FileContent :=
  match fs with
  | [] => none
  | e :: rest => if e.1 = p then some e.2 else fsLookup rest p

/-- Create or overwrite a file. -/
def fsWrite (fs : FS) (p : String) (c : FileContent) : FS :=
  (fs.filter fun e => decide (e.1 ≠ p)) ++ [(p, c)]

/-- `os.remove`. -/
def fsRemove (fs : FS) (p : String) : FS :=
  fs.filter fun e => decide (e.1 ≠ p)

/-! ### Configuration and the S3 client model -/

/-- The module-level configuration of `main.py`, loaded once from the
environment: bucket name, remote backup folder (`AWS_S3_BACKUP_FOLDER`),
local dump directory (the value of `PATH_TO_SQL_DUMPS`, itself produced by
`os.path.join` on the script directory, so effectively absolute — joining
it again on lines 56-58 leaves it unchanged), and the configured database
identifiers (`DATABASES`). -/
structure Config where
  bucket : String
  backupFolder : String
  dumpDir : String
  databases : List String

/-- One call made to the S3 client. -/
inductive S3Event where
  | put (key : String)
  | list (folder : String)
  | delete (key : String)
deriving DecidableEq

/-- A remote object as returned by `list_objects_v2`: its `Key` and its
timezone-aware `LastModified`. -/
structure S3Object where
  key : String
  lastModified : AwareTime
deriving DecidableEq

/-- Oracle for the external effects of one `dump_database` call: whether
the `mysqldump` subprocess exits 0 for a database, and whether writing a
given zip archive succeeds. -/
structure DumpEnv where
  mysqldumpOk : String → Bool
  zipOk : String → Bool

/-- Oracle for `upload_file`: whether the put of a given remote key
succeeds on the network. -/
structure UploadEnv where
  putOk : String → Bool

/-- Oracle for the S3 calls of one `delete_old_backups` call: the outcome
of `list_objects_v2` (a listing, or an exception) and whether
`delete_object` succeeds for a given key. -/
structure PruneEnv where
  listResult : Except Unit (List S3Object)
  deleteOk : String → Bool

/-! ### `dump_database` (lines 54-81) -/

/-- Line 56-60: the uncompressed dump path
`os.path.join(dumpDir, f"{db_name}_{now.strftime(LOCAL_DATE_FORMAT)}.sql")`. -/
def sqlPath (cfg : Config) (now : DateTime) (db : String) : String :=
  pathJoin cfg.dumpDir (db ++ "_" ++ formatDT now ++ ".sql")

/-- Line 70: `compressed_file = backup_file + ".zip"`. -/
def zipPath (cfg : Config) (now : DateTime) (db : String) : String :=
  sqlPath cfg now db ++ ".zip"

/-- The body of the `try:` block of `dump_database` (lines 55-78): run the
shell `mysqldump ... > backup_file` (the redirection creates the output
file even when the command then fails and `check=True` raises), compress
into `backup_file + ".zip"` with exactly one entry named
`os.path.basename(backup_file)`, remove the uncompressed file, return the
archive path.  `.error` is a raised exception at that point. -/
def dump_database_try (cfg : Config) (env : DumpEnv) (now : DateTime) (db : String)
    (fs : FS) : FS × Except Unit String :=
  let bf := sqlPath cfg now db
  let fs1 := fsWrite fs bf (FileContent.dump db)
  if env.mysqldumpOk db then
    let cf := zipPath cfg now db
    if env.zipOk cf then
      let fs2 := fsWrite fs1 cf (FileContent.archive [basename bf])
      let fs3 := fsRemove fs2 bf
      (fs3, Except.ok cf)
    else (fs1, Except.error ())
  else (fs1, Except.error ())

/-- `dump_database` (lines 54-81): the `try/except` wrapper — any exception
is caught, logged, and turned into the no-artifact result `None`. -/
def dump_database (cfg : Config) (env : DumpEnv) (now : DateTime) (db : String)
    (fs : FS) : FS × Option String :=
  let r := dump_database_try cfg env now db fs
  match r.2 with
  | Except.ok f => (r.1, some f)
  | Except.error _ => (r.1, none)

/-- The artifact (if any) a `dump_database` call returns; it does not
depend on the prior filesystem contents. -/
def dumpArtifact (cfg : Config) (env : DumpEnv) (now : DateTime) (db : String) :
    Option String :=
  if env.mysqldumpOk db && env.zipOk (zipPath cfg now db) then
    some (zipPath cfg now db)
  else none

/-! ### `upload_to_s3` (lines 85-93) -/

/-- Line 88: `s3_path = os.path.join(AWS_S3_BACKUP_FOLDER, file_name)`
with `file_name = os.path.basename(file_path)`. -/
def s3PathOf (cfg : Config) (file_path : String) : String :=
  pathJoin cfg.backupFolder (basename file_path)

/-- The body of the `try:` block of `upload_to_s3` (lines 88-91):
`upload_file` raises when the local file is missing or the put fails;
on success the local file is removed. -/
def upload_to_s3_try (cfg : Config) (env : UploadEnv) (fs : FS) (file_path : String) :
    FS × List S3Event × Except Unit Unit :=
  let s3_path := s3PathOf cfg file_path
  match fsLookup fs file_path with
  | none => (fs, [], Except.error ())
  | some _ =>
    if env.putOk s3_path then
      (fsRemove fs file_path, [S3Event.put s3_path], Except.ok ())
    else
      (fs, [S3Event.put s3_path], Except.error ())

/-- `upload_to_s3` (lines 85-93): the `try/except` wrapper — failures are
caught and logged, the function returns normally either way. -/
def upload_to_s3 (cfg : Config) (env : UploadEnv) (fs : FS) (file_path : String) :
    FS × List S3Event :=
  let r := upload_to_s3_try cfg env fs file_path
  (r.1, r.2.1)

/-! ### `delete_old_backups` (lines 97-124) -/

/-- Lines 109-114: the backup date of one listed object — the timestamp
parsed from the key, or, when parsing raises, the object's `LastModified`
with the timezone annotation stripped. -/
def backupDateOf (obj : S3Object) : DateTime :=
  match strptimeLocal (tsCandidate obj.key) with
  | some d => d
  | none => stripTz obj.lastModified

/-- Lines 106-117: the keys appended to `backups_to_delete` — those listed
objects whose backup date is strictly before the retention cutoff, in
listing order. -/
def queuedForDeletion (now : DateTime) (listing : List S3Object) : List String :=
  (listing.filter fun o => dtLt (backupDateOf o) (retentionDate now)).map S3Object.key

/-- Lines 120-122: the per-key deletion loop.  Returns the keys for which
`delete_object` was actually called, and `.error` when one of those calls
raised (which aborts the rest of the loop). -/
def deleteLoop (ok : String → Bool) : List String → List String × Except Unit Unit
  | [] => ([], Except.ok ())
  | k :: ks =>
    if ok k then
      let r := deleteLoop ok ks
      (k :: r.1, r.2)
    else ([k], Except.error ())

/-- The body of the `try:` block of `delete_old_backups` (lines 98-122):
list the bucket under the backup folder, queue stale objects, delete them
one by one.  Returns the S3 calls made and `.ok` with the keys deleted, or
`.error` when the listing or one deletion raised. -/
def delete_old_backups_try (cfg : Config) (env : PruneEnv) (now : DateTime) :
    List S3Event × Except Unit (List String) :=
  match env.listResult with
  | Except.error _ => ([S3Event.list cfg.backupFolder], Except.error ())
  | Except.ok listing =>
    let queued := queuedForDeletion now listing
    let r := deleteLoop env.deleteOk queued
    (S3Event.list cfg.backupFolder :: r.1.map S3Event.delete,
      match r.2 with
      | Except.ok _ => Except.ok r.1
      | Except.error e => Except.error e)

/-- `delete_old_backups` (lines 97-124): the `try/except` wrapper — any
exception is caught and logged; the function returns normally. -/
def delete_old_backups (cfg : Config) (env : PruneEnv) (now : DateTime) :
    List S3Event :=
  (delete_old_backups_try cfg env now).1

/-! ### `perform_backup` (lines 128-141) -/

/-- Observable outcome of one `perform_backup` run. -/
structure RunTrace where
  fs : FS
  events : List S3Event
  dumpAttempts : List String
  pruneInvoked : Bool
  warned : Bool

/-- Accumulator of the per-database loop (lines 131-135). -/
structure OrchAcc where
  fs : FS
  events : List S3Event
  dumpAttempts : List String
  generated : List String

/-- One iteration of the loop: dump, and if an artifact was produced,
upload it and record it in `backups_generated`. -/
def backupStep (cfg : Config) (denv : DumpEnv) (uenv : UploadEnv) (now : DateTime)
    (acc : OrchAcc) (db : String) : OrchAcc :=
  let r := dump_database cfg denv now db acc.fs
  match r.2 with
  | some f =>
    let u := upload_to_s3 cfg uenv r.1 f
    ⟨u.1, acc.events ++ u.2, acc.dumpAttempts ++ [db], acc.generated ++ [f]⟩
  | none => ⟨r.1, acc.events, acc.dumpAttempts ++ [db], acc.generated⟩

/-- Lines 137-141: after the loop, prune if `backups_generated` is
non-empty (a non-empty Python list is truthy), otherwise log a warning. -/
def afterLoop (cfg : Config) (penv : PruneEnv) (now : DateTime) (acc : OrchAcc) :
    RunTrace :=
  if acc.generated.isEmpty then
    ⟨acc.fs, acc.events, acc.dumpAttempts, false, true⟩
  else
    ⟨acc.fs, acc.events ++ delete_old_backups cfg penv now, acc.dumpAttempts, true, false⟩

/-- `perform_backup` (lines 128-141): loop over the configured databases,
then prune old backups if at least one was generated, otherwise log a
warning and skip pruning.  (The script calls `datetime.now()` afresh inside
each `dump_database`; the single `now` here stands for the clock readings
of one run.) -/
def perform_backup (cfg : Config) (denv : DumpEnv) (uenv : UploadEnv) (penv : PruneEnv)
    (now : DateTime) (fs : FS) : RunTrace :=
  afterLoop cfg penv now
    (cfg.databases.foldl (backupStep cfg denv uenv now) ⟨fs, [], [], []⟩)

/-! ### Helper lemmas about the string operations -/

theorem afterLast_foldl (sep : Char) (ys : List Char) (h : sep ∉ ys) : ∀ a : List Char,
    ys.foldl (fun acc c => if c = sep then [] else acc ++ [c]) a = a ++ ys := by
  induction ys with
  | nil => intro a; simp
  | cons c cs ih =>
    intro a
    have hc : ¬c = sep := fun e => h (e ▸ List.mem_cons_self c cs)
    have hcs : sep ∉ cs := fun m => h (List.mem_cons_of_mem c m)
    simp only [List.foldl_cons, if_neg hc]
    rw [ih hcs (a ++ [c])]
    simp

theorem afterLast_of_not_mem (sep : Char) (ys : List Char) (h : sep ∉ ys) :
    afterLast sep ys = ys := by
  unfold afterLast
  simpa using afterLast_foldl sep ys h []

theorem afterLast_append_sep (sep : Char) (xs ys : List Char) :
    afterLast sep (xs ++ sep :: ys) = afterLast sep ys := by
  unfold afterLast
  rw [List.foldl_append]
  simp

theorem removeSqlZip_cons_ne (c : Char) (l : List Char) (h : c ≠ '.') :
    removeSqlZip (c :: l) = c :: removeSqlZip l := by
  rw [removeSqlZip.eq_def]
  split
  · rename_i heq; injection heq with h1 _; exact absurd h1 h
  · rename_i heq; injection heq with h1 h2; rw [h1, h2]
  · rename_i heq; exact absurd heq (by simp)

theorem removeSqlZip_append_no_dot (xs ys : List Char) (h : '.' ∉ xs) :
    removeSqlZip (xs ++ ys) = xs ++ removeSqlZip ys := by
  induction xs with
  | nil => simp
  | cons c cs ih =>
    have hc : c ≠ '.' := fun e => h (e ▸ List.mem_cons_self c cs)
    have hcs : '.' ∉ cs := fun m => h (List.mem_cons_of_mem c m)
    rw [List.cons_append, removeSqlZip_cons_ne c _ hc, ih hcs, List.cons_append]

theorem removeSqlZip_sqlzip : removeSqlZip (".sql.zip".data) = [] := rfl

/-! ### Helper lemmas about the timestamp parser -/

theorem digit?_isDigit {c : Char} {d : Nat} (h : digit? c = some d) : c.isDigit = true := by
  unfold digit? at h
  by_cases hc : c.isDigit
  · exact hc
  · rw [if_neg hc] at h
    exact absurd h (by simp)

theorem expectChar_decomp {c : Char} {cs r : List Char} (h : expectChar c cs = some r) :
    cs = c :: r := by
  rcases cs with _ | ⟨x, rest⟩
  · exact absurd h (by simp [expectChar])
  · simp only [expectChar] at h
    by_cases hx : x = c
    · rw [if_pos hx] at h
      simp only [Option.some.injEq] at h
      rw [hx, h]
    · rw [if_neg hx] at h
      exact absurd h (by simp)

theorem expectT_decomp {cs r : List Char} (h : expectT cs = some r) :
    ∃ x, cs = x :: r ∧ (x = 'T' ∨ x = 't') := by
  rcases cs with _ | ⟨x, rest⟩
  · exact absurd h (by simp [expectT])
  · simp only [expectT] at h
    by_cases hx : x = 'T' ∨ x = 't'
    · rw [if_pos hx] at h
      simp only [Option.some.injEq] at h
      exact ⟨x, by rw [h], hx⟩
    · rw [if_neg hx] at h
      exact absurd h (by simp)

theorem parse4_decomp {cs : List Char} {n : Nat} {r : List Char}
    (h : parse4 cs = some (n, r)) :
    ∃ a b c d, cs = a :: b :: c :: d :: r ∧ a.isDigit = true ∧ b.isDigit = true
      ∧ c.isDigit = true ∧ d.isDigit = true := by
  rcases cs with _ | ⟨a, _ | ⟨b, _ | ⟨c, _ | ⟨d, rest⟩⟩⟩⟩
  · exact absurd h (by simp [parse4])
  · exact absurd h (by simp [parse4])
  · exact absurd h (by simp [parse4])
  · exact absurd h (by simp [parse4])
  · simp only [parse4] at h
    cases ha : digit? a with
    | none => rw [ha] at h; exact absurd h (by simp)
    | some x =>
      rw [ha] at h
      cases hb : digit? b with
      | none => rw [hb] at h; exact absurd h (by simp)
      | some y =>
        rw [hb] at h
        cases hc : digit? c with
        | none => rw [hc] at h; exact absurd h (by simp)
        | some z =>
          rw [hc] at h
          cases hd : digit? d with
          | none => rw [hd] at h; exact absurd h (by simp)
          | some w =>
            rw [hd] at h
            simp only [Option.some_bind, Option.some.injEq, Prod.mk.injEq] at h
            exact ⟨a, b, c, d, by rw [h.2], digit?_isDigit ha, digit?_isDigit hb,
              digit?_isDigit hc, digit?_isDigit hd⟩

theorem parse12_decomp {cs : List Char} {n : Nat} {r : List Char}
    (h : parse12 cs = some (n, r)) :
    ∃ pre, cs = pre ++ r ∧ ∀ c ∈ pre, c.isDigit = true := by
  rcases cs with _ | ⟨a, _ | ⟨b, rest⟩⟩
  · exact absurd h (by simp [parse12])
  · simp only [parse12] at h
    cases ha : digit? a with
    | none => rw [ha] at h; exact absurd h (by simp)
    | some x =>
      rw [ha] at h
      simp only [Option.some.injEq, Prod.mk.injEq] at h
      refine ⟨[a], by rw [← h.2]; rfl, ?_⟩
      intro e he
      rw [List.mem_singleton.mp he]
      exact digit?_isDigit ha
  · simp only [parse12] at h
    cases ha : digit? a with
    | none => rw [ha] at h; exact absurd h (by simp)
    | some x =>
      rw [ha] at h
      cases hb : digit? b with
      | some y =>
        rw [hb] at h
        simp only [Option.some.injEq, Prod.mk.injEq] at h
        refine ⟨[a, b], by rw [← h.2]; rfl, ?_⟩
        intro e he
        rcases List.mem_cons.mp he with h1 | h1
        · rw [h1]; exact digit?_isDigit ha
        · rw [List.mem_singleton.mp h1]; exact digit?_isDigit hb
      | none =>
        rw [hb] at h
        simp only [Option.some.injEq, Prod.mk.injEq] at h
        refine ⟨[a], by rw [← h.2]; rfl, ?_⟩
        intro e he
        rw [List.mem_singleton.mp he]
        exact digit?_isDigit ha

/-- Every character of a string accepted by `strptime` with the format
`"%Y-%m-%dT%H:%M:%S"` is a digit or one of the literal separators. -/
theorem strptime_chars {s : String} {t : DateTime} (h : strptimeLocal s = some t) :
    ∀ c ∈ s.data, c.isDigit = true ∨ c = '-' ∨ c = ':' ∨ c = 'T' ∨ c = 't' := by
  unfold strptimeLocal at h
  split at h
  · exact absurd h (by simp)
  rename_i y r1 h1
  split at h
  · exact absurd h (by simp)
  rename_i r2 h2
  split at h
  · exact absurd h (by simp)
  rename_i mo r3 h3
  split at h
  · exact absurd h (by simp)
  rename_i r4 h4
  split at h
  · exact absurd h (by simp)
  rename_i da r5 h5
  split at h
  · exact absurd h (by simp)
  rename_i r6 h6
  split at h
  · exact absurd h (by simp)
  rename_i ho r7 h7
  split at h
  · exact absurd h (by simp)
  rename_i r8 h8
  split at h
  · exact absurd h (by simp)
  rename_i mi r9 h9
  split at h
  · exact absurd h (by simp)
  rename_i r10 h10
  split at h
  · exact absurd h (by simp)
  rename_i se r11 h11
  split at h
  case isFalse => exact absurd h (by simp)
  rename_i hcond
  have hr11 : r11 = [] := List.isEmpty_iff.mp (Bool.and_elim_left hcond ▸ rfl)
  obtain ⟨a1, a2, a3, a4, e1, d1, d2, d3, d4⟩ := parse4_decomp h1
  have e2 : r1 = '-' :: r2 := expectChar_decomp h2
  obtain ⟨pmo, e3, dmo⟩ := parse12_decomp h3
  have e4 : r3 = '-' :: r4 := expectChar_decomp h4
  obtain ⟨pda, e5, dda⟩ := parse12_decomp h5
  obtain ⟨xT, e6, hT⟩ := expectT_decomp h6
  obtain ⟨pho, e7, dho⟩ := parse12_decomp h7
  have e8 : r7 = ':' :: r8 := expectChar_decomp h8
  obtain ⟨pmi, e9, dmi⟩ := parse12_decomp h9
  have e10 : r9 = ':' :: r10 := expectChar_decomp h10
  obtain ⟨pse, e11, dse⟩ := parse12_decomp h11
  intro c hc
  rw [e1, e2, e3, e4, e5, e6, e7, e8, e9, e10, e11, hr11] at hc
  simp only [List.mem_cons, List.mem_append, List.append_nil] at hc
  rcases hc with hc | hc | hc | hc | hc
  · exact Or.inl (hc ▸ d1)
  · exact Or.inl (hc ▸ d2)
  · exact Or.inl (hc ▸ d3)
  · exact Or.inl (hc ▸ d4)
  rcases hc with hc | hc
  · exact Or.inr (Or.inl hc)
  rcases hc with hc | hc
  · exact Or.inl (dmo c hc)
  rcases hc with hc | hc
  · exact Or.inr (Or.inl hc)
  rcases hc with hc | hc
  · exact Or.inl (dda c hc)
  rcases hc with hc | hc
  · rcases hT with hT | hT
    · exact Or.inr (Or.inr (Or.inr (Or.inl (hc ▸ hT))))
    · exact Or.inr (Or.inr (Or.inr (Or.inr (hc ▸ hT))))
  rcases hc with hc | hc
  · exact Or.inl (dho c hc)
  rcases hc with hc | hc
  · exact Or.inr (Or.inr (Or.inl hc))
  rcases hc with hc | hc
  · exact Or.inl (dmi c hc)
  rcases hc with hc | hc
  · exact Or.inr (Or.inr (Or.inl hc))
  · exact Or.inl (dse c hc)

/-- A string accepted by `strptime` contains neither `.` nor `_`. -/
theorem strptime_no_dot_underscore {s : String} {t : DateTime}
    (h : strptimeLocal s = some t) : '.' ∉ s.data ∧ '_' ∉ s.data := by
  constructor
  · intro hm
    rcases strptime_chars h '.' hm with hd | hd | hd | hd | hd <;> simp at hd
  · intro hm
    rcases strptime_chars h '_' hm with hd | hd | hd | hd | hd <;> simp at hd

/-! ### Helper lemmas about the filesystem model -/

theorem fsLookup_none_filter (fs : FS) (p : String) (h : fsLookup fs p = none) :
    (fs.filter fun e => decide (e.1 ≠ p)) = fs := by
  induction fs with
  | nil => rfl
  | cons e rest ih =>
    unfold fsLookup at h
    by_cases he : e.1 = p
    · rw [if_pos he] at h; exact absurd h (by simp)
    · rw [if_neg he] at h
      show List.filter _ (e :: rest) = _
      rw [List.filter_cons_of_pos (by simpa using he), ih h]

theorem fsLookup_append_singleton_self (fs : FS) (p : String) (c : FileContent)
    (h : fsLookup fs p = none) : fsLookup (fs ++ [(p, c)]) p = some c := by
  induction fs with
  | nil => simp [fsLookup]
  | cons e rest ih =>
    unfold fsLookup at h
    by_cases he : e.1 = p
    · rw [if_pos he] at h; exact absurd h (by simp)
    · rw [if_neg he] at h
      show fsLookup (e :: (rest ++ [(p, c)])) p = some c
      unfold fsLookup
      rw [if_neg he]
      exact ih h

theorem fsLookup_append_singleton_other (fs : FS) (p q : String) (c : FileContent)
    (h : fsLookup fs q = none) (hne : p ≠ q) : fsLookup (fs ++ [(p, c)]) q = none := by
  induction fs with
  | nil => simp [fsLookup, hne]
  | cons e rest ih =>
    unfold fsLookup at h
    by_cases he : e.1 = q
    · rw [if_pos he] at h; exact absurd h (by simp)
    · rw [if_neg he] at h
      show fsLookup (e :: (rest ++ [(p, c)])) q = none
      unfold fsLookup
      rw [if_neg he]
      exact ih h

theorem fsLookup_fsRemove_self (fs : FS) (p : String) :
    fsLookup (fsRemove fs p) p = none := by
  induction fs with
  | nil => rfl
  | cons e rest ih =>
    unfold fsRemove at ih ⊢
    by_cases he : e.1 = p
    · rw [List.filter_cons_of_neg (by simpa using he)]; exact ih
    · rw [List.filter_cons_of_pos (by simpa using he)]
      unfold fsLookup
      rw [if_neg he]
      exact ih

theorem string_append_zip_ne (s : String) : s ++ ".zip" ≠ s := by
  intro e
  have h := congrArg String.length e
  rw [String.length_append] at h
  have : (".zip" : String).length = 4 := rfl
  omega

/-! ### Helper lemmas about the deletion loop -/

theorem deleteLoop_all_ok (ok : String → Bool) (ks : List String)
    (h : ∀ k ∈ ks, ok k = true) : deleteLoop ok ks = (ks, Except.ok ()) := by
  induction ks with
  | nil => rfl
  | cons k rest ih =>
    unfold deleteLoop
    rw [h k (List.mem_cons_self k rest), ih fun x hx => h x (List.mem_cons_of_mem k hx)]
    simp

theorem delete_old_backups_try_ok (cfg : Config) (env : PruneEnv) (now : DateTime)
    (listing : List S3Object) (hlist : env.listResult = Except.ok listing) :
    delete_old_backups_try cfg env now
      = (S3Event.list cfg.backupFolder
          :: (deleteLoop env.deleteOk (queuedForDeletion now listing)).1.map S3Event.delete,
        match (deleteLoop env.deleteOk (queuedForDeletion now listing)).2 with
        | Except.ok _ => Except.ok (deleteLoop env.deleteOk (queuedForDeletion now listing)).1
        | Except.error e => Except.error e) := by
  unfold delete_old_backups_try
  rw [hlist]

theorem deleteLoop_first_failure (ok : String → Bool) (ks₁ : List String) (k : String)
    (ks₂ : List String) (h1 : ∀ x ∈ ks₁, ok x = true) (h2 : ok k = false) :
    deleteLoop ok (ks₁ ++ k :: ks₂) = (ks₁ ++ [k], Except.error ()) := by
  induction ks₁ with
  | nil =>
    rw [List.nil_append, List.nil_append]
    unfold deleteLoop
    rw [h2]
    simp
  | cons x rest ih =>
    rw [List.cons_append]
    unfold deleteLoop
    rw [h1 x (List.mem_cons_self x rest),
      ih fun y hy => h1 y (List.mem_cons_of_mem x hy)]
    simp

/-! ### Helper lemmas about path construction and `strftime` output -/

theorem digitChar_isDigit (n : Nat) (h : n < 10) : (digitChar n).isDigit = true := by
  interval_cases n <;> decide

theorem natDigitsAux_digits (fuel : Nat) : ∀ (n : Nat), ∀ c ∈ natDigitsAux fuel n,
    c.isDigit = true := by
  induction fuel with
  | zero => intro n c hc; simp [natDigitsAux] at hc
  | succ f ih =>
    intro n c hc
    unfold natDigitsAux at hc
    by_cases h : n < 10
    · rw [if_pos h] at hc
      rw [List.mem_singleton.mp hc]
      exact digitChar_isDigit n h
    · rw [if_neg h] at hc
      rcases List.mem_append.mp hc with h1 | h1
      · exact ih _ c h1
      · rw [List.mem_singleton.mp h1]
        exact digitChar_isDigit _ (Nat.mod_lt n (by decide))

theorem natStr_chars (n : Nat) : ∀ c ∈ (natStr n).data, c.isDigit = true :=
  natDigitsAux_digits (n + 1) n

theorem pad2_chars (n : Nat) : ∀ c ∈ (pad2 n).data, c.isDigit = true := by
  unfold pad2
  split
  · intro c hc
    rw [String.data_append] at hc
    rcases List.mem_append.mp hc with h1 | h1
    · have h0 : ("0" : String).data = ['0'] := rfl
      rw [h0] at h1
      rw [List.mem_singleton.mp h1]
      decide
    · exact natStr_chars n c h1
  · exact natStr_chars n

theorem pad4_chars (n : Nat) : ∀ c ∈ (pad4 n).data, c.isDigit = true := by
  unfold pad4
  split
  · intro c hc
    rw [String.data_append] at hc
    rcases List.mem_append.mp hc with h1 | h1
    · have h0 : c = '0' := by
        have he : ("000" : String).data = ['0', '0', '0'] := rfl
        rw [he] at h1
        simpa using h1
      rw [h0]; decide
    · exact natStr_chars n c h1
  split
  · intro c hc
    rw [String.data_append] at hc
    rcases List.mem_append.mp hc with h1 | h1
    · have h0 : c = '0' := by
        have he : ("00" : String).data = ['0', '0'] := rfl
        rw [he] at h1
        simpa using h1
      rw [h0]; decide
    · exact natStr_chars n c h1
  split
  · intro c hc
    rw [String.data_append] at hc
    rcases List.mem_append.mp hc with h1 | h1
    · have h0 : ("0" : String).data = ['0'] := rfl
      rw [h0] at h1
      rw [List.mem_singleton.mp h1]
      decide
    · exact natStr_chars n c h1
  · exact natStr_chars n

theorem formatDT_no_slash (t : DateTime) : '/' ∉ (formatDT t).data := by
  intro hm
  unfold formatDT at hm
  simp only [String.data_append] at hm
  rcases List.mem_append.mp hm with hm | hm
  · rcases List.mem_append.mp hm with hm | hm
    · rcases List.mem_append.mp hm with hm | hm
      · rcases List.mem_append.mp hm with hm | hm
        · rcases List.mem_append.mp hm with hm | hm
          · rcases List.mem_append.mp hm with hm | hm
            · rcases List.mem_append.mp hm with hm | hm
              · rcases List.mem_append.mp hm with hm | hm
                · rcases List.mem_append.mp hm with hm | hm
                  · rcases List.mem_append.mp hm with hm | hm
                    · exact absurd (pad4_chars t.year '/' hm) (by decide)
                    · exact absurd (List.mem_singleton.mp hm) (by decide)
                  · exact absurd (pad2_chars t.month '/' hm) (by decide)
                · exact absurd (List.mem_singleton.mp hm) (by decide)
              · exact absurd (pad2_chars t.day '/' hm) (by decide)
            · exact absurd (List.mem_singleton.mp hm) (by decide)
          · exact absurd (pad2_chars t.hour '/' hm) (by decide)
        · exact absurd (List.mem_singleton.mp hm) (by decide)
      · exact absurd (pad2_chars t.minute '/' hm) (by decide)
    · exact absurd (List.mem_singleton.mp hm) (by decide)
  · exact absurd (pad2_chars t.second '/' hm) (by decide)

theorem startsWithSlash_false_of_not_mem (u : String) (h : '/' ∉ u.data) :
    startsWithSlash u = false := by
  unfold startsWithSlash
  cases hu : u.data with
  | nil => rfl
  | cons c l =>
    have hc : c ≠ '/' := fun e => h (hu ▸ (e ▸ List.mem_cons_self c l))
    simp [hc]

theorem string_eta (s : String) : (⟨s.data⟩ : String) = s := rfl

theorem basename_pathJoin (d g : String) (hg : '/' ∉ g.data) :
    basename (pathJoin d g) = g := by
  have hgs : ¬(startsWithSlash g = true) := by
    rw [startsWithSlash_false_of_not_mem g hg]
    simp
  unfold pathJoin
  rw [if_neg hgs]
  by_cases hd : d = "" ∨ endsWithSlash d = true
  · rw [if_pos hd]
    rcases hd with hd | hd
    · subst hd
      unfold basename
      have he : (("" : String) ++ g).data = g.data := rfl
      rw [he, afterLast_of_not_mem _ _ hg, string_eta]
    · unfold endsWithSlash at hd
      rcases hl : d.data.getLast? with _ | c
      · rw [hl] at hd; exact absurd hd (by simp)
      · rw [hl] at hd
        have hc : c = '/' := by simpa using hd
        obtain ⟨init, hinit⟩ := List.getLast?_eq_some_iff.mp hl
        unfold basename
        rw [String.data_append, hinit, hc, List.append_assoc, List.singleton_append,
          afterLast_append_sep, afterLast_of_not_mem _ _ hg, string_eta]
  · rw [if_neg hd]
    unfold basename
    rw [String.data_append, String.data_append]
    have hs : ("/" : String).data = ['/'] := rfl
    rw [hs, List.append_assoc, List.singleton_append, afterLast_append_sep,
      afterLast_of_not_mem _ _ hg, string_eta]

theorem pathJoin_of_plain (a b : String) (ha1 : a ≠ "") (ha2 : endsWithSlash a = false)
    (hb : startsWithSlash b = false) : pathJoin a b = a ++ "/" ++ b := by
  unfold pathJoin
  rw [if_neg (by rw [hb]; simp), if_neg ?hcond]
  case hcond =>
    intro hor
    rcases hor with hor | hor
    · exact ha1 hor
    · rw [ha2] at hor; exact absurd hor (by simp)

/-! ### Helper lemmas about the orchestrator loop -/

theorem dump_database_snd (cfg : Config) (denv : DumpEnv) (now : DateTime) (db : String)
    (fs : FS) : (dump_database cfg denv now db fs).2 = dumpArtifact cfg denv now db := by
  unfold dump_database dump_database_try dumpArtifact
  by_cases h1 : denv.mysqldumpOk db = true
  · by_cases h2 : denv.zipOk (zipPath cfg now db) = true
    · simp [h1, h2]
    · simp [h1, h2]
  · simp [h1]

theorem backupStep_generated (cfg : Config) (denv : DumpEnv) (uenv : UploadEnv)
    (now : DateTime) (acc : OrchAcc) (db : String) :
    (backupStep cfg denv uenv now acc db).generated
      = acc.generated ++ (dumpArtifact cfg denv now db).toList := by
  unfold backupStep
  cases h : dumpArtifact cfg denv now db with
  | some f => simp [dump_database_snd, h]
  | none => simp [dump_database_snd, h]

theorem backupStep_attempts (cfg : Config) (denv : DumpEnv) (uenv : UploadEnv)
    (now : DateTime) (acc : OrchAcc) (db : String) :
    (backupStep cfg denv uenv now acc db).dumpAttempts = acc.dumpAttempts ++ [db] := by
  unfold backupStep
  cases h : dumpArtifact cfg denv now db with
  | some f => simp [dump_database_snd, h]
  | none => simp [dump_database_snd, h]

theorem backupStep_events_none (cfg : Config) (denv : DumpEnv) (uenv : UploadEnv)
    (now : DateTime) (acc : OrchAcc) (db : String)
    (h : dumpArtifact cfg denv now db = none) :
    (backupStep cfg denv uenv now acc db).events = acc.events := by
  unfold backupStep
  simp [dump_database_snd, h]

theorem foldl_generated (cfg : Config) (denv : DumpEnv) (uenv : UploadEnv)
    (now : DateTime) (dbs : List String) : ∀ acc : OrchAcc,
    (dbs.foldl (backupStep cfg denv uenv now) acc).generated
      = acc.generated ++ dbs.filterMap (fun db => dumpArtifact cfg denv now db) := by
  induction dbs with
  | nil => intro acc; simp
  | cons db rest ih =>
    intro acc
    rw [List.foldl_cons, ih, backupStep_generated, List.filterMap_cons]
    cases h : dumpArtifact cfg denv now db with
    | some f => simp [h]
    | none => simp [h]

theorem foldl_attempts (cfg : Config) (denv : DumpEnv) (uenv : UploadEnv)
    (now : DateTime) (dbs : List String) : ∀ acc : OrchAcc,
    (dbs.foldl (backupStep cfg denv uenv now) acc).dumpAttempts
      = acc.dumpAttempts ++ dbs := by
  induction dbs with
  | nil => intro acc; simp
  | cons db rest ih =>
    intro acc
    rw [List.foldl_cons, ih, backupStep_attempts, List.append_assoc,
      List.singleton_append]

theorem foldl_events_all_none (cfg : Config) (denv : DumpEnv) (uenv : UploadEnv)
    (now : DateTime) (dbs : List String) : ∀ acc : OrchAcc,
    (∀ db ∈ dbs, dumpArtifact cfg denv now db = none) →
    (dbs.foldl (backupStep cfg denv uenv now) acc).events = acc.events := by
  induction dbs with
  | nil => intro acc _; rfl
  | cons db rest ih =>
    intro acc h
    rw [List.foldl_cons, ih _ fun x hx => h x (List.mem_cons_of_mem db hx),
      backupStep_events_none cfg denv uenv now acc db (h db (List.mem_cons_self db rest))]

theorem pathJoin_append_right (d f g : String)
    (hf : startsWithSlash f = false) (hfg : startsWithSlash (f ++ g) = false) :
    pathJoin d f ++ g = pathJoin d (f ++ g) := by
  unfold pathJoin
  by_cases hd : d = "" ∨ endsWithSlash d = true
  · rw [if_neg (by simp [hf]), if_pos hd, if_neg (by simp [hfg]), if_pos hd,
      String.append_assoc]
  · rw [if_neg (by simp [hf]), if_neg hd, if_neg (by simp [hfg]), if_neg hd,
      String.append_assoc]

/-! ### The claims -/

/-- Claim C4: for every listed remote object whose key does not yield a
parsable timestamp under the naming pattern, the pruner falls back to the
object's storage-provided last-modified time, with the timezone annotation
stripped, as the backup date used for the retention comparison. -/
theorem claim4_fallback_to_last_modified (obj : S3Object)
    (h : strptimeLocal (tsCandidate obj.key) = none) :
    backupDateOf obj = stripTz obj.lastModified := by
  unfold backupDateOf
  rw [h]

theorem claim4_witness :
    strptimeLocal (tsCandidate "backups/mydb_notadate.sql.zip") = none
    ∧ backupDateOf ⟨"backups/mydb_notadate.sql.zip", ⟨⟨2024, 5, 1, 2, 3, 4⟩, some 0⟩⟩
        = stripTz ⟨⟨2024, 5, 1, 2, 3, 4⟩, some 0⟩ :=
  ⟨by decide, claim4_fallback_to_last_modified
    ⟨"backups/mydb_notadate.sql.zip", ⟨⟨2024, 5, 1, 2, 3, 4⟩, some 0⟩⟩ (by decide)⟩

/-- Claim C7: if the remote listing returns zero objects under the
configured backup folder, the pruning routine completes as a no-op: its
S3 calls are the single listing call (zero delete calls) and no error is
raised (the body of its `try:` completes with an empty deletion list). -/
theorem claim7_empty_listing_noop (cfg : Config) (env : PruneEnv) (now : DateTime)
    (h : env.listResult = Except.ok []) :
    delete_old_backups cfg env now = [S3Event.list cfg.backupFolder]
    ∧ (delete_old_backups_try cfg env now).2 = Except.ok [] := by
  unfold delete_old_backups delete_old_backups_try
  rw [h]
  exact ⟨rfl, rfl⟩

theorem claim7_witness :
    (⟨Except.ok [], fun _ => true⟩ : PruneEnv).listResult = Except.ok []
    ∧ delete_old_backups ⟨"bkt", "backups", "/tmp/dumps", []⟩
        ⟨Except.ok [], fun _ => true⟩ ⟨2024, 6, 1, 0, 0, 0⟩
        = [S3Event.list "backups"]
    ∧ (delete_old_backups_try ⟨"bkt", "backups", "/tmp/dumps", []⟩
        ⟨Except.ok [], fun _ => true⟩ ⟨2024, 6, 1, 0, 0, 0⟩).2 = Except.ok [] :=
  ⟨rfl, claim7_empty_listing_noop ⟨"bkt", "backups", "/tmp/dumps", []⟩
    ⟨Except.ok [], fun _ => true⟩ ⟨2024, 6, 1, 0, 0, 0⟩ rfl⟩

/-- Claim C5: for every existing local artifact, upload removes that local
file when the upload to object storage succeeds, and leaves the local
filesystem untouched when the upload fails. -/
theorem claim5_upload_removes_or_keeps (cfg : Config) (env : UploadEnv) (fs : FS)
    (file_path : String) (c : FileContent) (h : fsLookup fs file_path = some c) :
    (env.putOk (s3PathOf cfg file_path) = true →
      upload_to_s3 cfg env fs file_path
        = (fsRemove fs file_path, [S3Event.put (s3PathOf cfg file_path)])
      ∧ fsLookup (fsRemove fs file_path) file_path = none)
    ∧ (env.putOk (s3PathOf cfg file_path) = false →
      upload_to_s3 cfg env fs file_path = (fs, [S3Event.put (s3PathOf cfg file_path)])) := by
  constructor
  · intro hp
    refine ⟨?_, fsLookup_fsRemove_self fs file_path⟩
    unfold upload_to_s3 upload_to_s3_try
    rw [h]
    simp [hp]
  · intro hp
    unfold upload_to_s3 upload_to_s3_try
    rw [h]
    simp [hp]

theorem claim5_witness :
    fsLookup [("/tmp/dumps/app_2024-01-02T03:04:05.sql.zip",
        FileContent.archive ["app_2024-01-02T03:04:05.sql"])]
        "/tmp/dumps/app_2024-01-02T03:04:05.sql.zip"
      = some (FileContent.archive ["app_2024-01-02T03:04:05.sql"])
    ∧ ((⟨fun _ => true⟩ : UploadEnv).putOk
        (s3PathOf ⟨"bkt", "backups", "/tmp/dumps", []⟩
          "/tmp/dumps/app_2024-01-02T03:04:05.sql.zip") = true →
      upload_to_s3 ⟨"bkt", "backups", "/tmp/dumps", []⟩ ⟨fun _ => true⟩
          [("/tmp/dumps/app_2024-01-02T03:04:05.sql.zip",
            FileContent.archive ["app_2024-01-02T03:04:05.sql"])]
          "/tmp/dumps/app_2024-01-02T03:04:05.sql.zip"
        = (fsRemove [("/tmp/dumps/app_2024-01-02T03:04:05.sql.zip",
            FileContent.archive ["app_2024-01-02T03:04:05.sql"])]
            "/tmp/dumps/app_2024-01-02T03:04:05.sql.zip",
          [S3Event.put (s3PathOf ⟨"bkt", "backups", "/tmp/dumps", []⟩
            "/tmp/dumps/app_2024-01-02T03:04:05.sql.zip")])
      ∧ fsLookup (fsRemove [("/tmp/dumps/app_2024-01-02T03:04:05.sql.zip",
            FileContent.archive ["app_2024-01-02T03:04:05.sql"])]
            "/tmp/dumps/app_2024-01-02T03:04:05.sql.zip")
          "/tmp/dumps/app_2024-01-02T03:04:05.sql.zip" = none) :=
  ⟨rfl, (claim5_upload_removes_or_keeps ⟨"bkt", "backups", "/tmp/dumps", []⟩
    ⟨fun _ => true⟩
    [("/tmp/dumps/app_2024-01-02T03:04:05.sql.zip",
      FileContent.archive ["app_2024-01-02T03:04:05.sql"])]
    "/tmp/dumps/app_2024-01-02T03:04:05.sql.zip"
    (FileContent.archive ["app_2024-01-02T03:04:05.sql"]) rfl).1⟩

/-- Claim C6: no stage propagates an exception to its caller — whenever the
body of a stage's `try:` block raises, the stage still returns normally
with a no-artifact / no-op result (`None` for the dumper, its filesystem
and event outcome for the uploader and pruner) — and the orchestrator
consequently attempts a dump for every configured database, so one
database's failure never blocks the later ones. -/
theorem claim6_stages_never_propagate (cfg : Config) (denv : DumpEnv) (uenv : UploadEnv)
    (penv : PruneEnv) (now : DateTime) (db file_path : String) (fs : FS) :
    (∀ fs' e, dump_database_try cfg denv now db fs = (fs', Except.error e) →
      dump_database cfg denv now db fs = (fs', none))
    ∧ (∀ fs' evs e, upload_to_s3_try cfg uenv fs file_path = (fs', evs, Except.error e) →
      upload_to_s3 cfg uenv fs file_path = (fs', evs))
    ∧ (∀ evs e, delete_old_backups_try cfg penv now = (evs, Except.error e) →
      delete_old_backups cfg penv now = evs)
    ∧ (perform_backup cfg denv uenv penv now fs).dumpAttempts = cfg.databases := by
  refine ⟨?_, ?_, ?_, ?_⟩
  · intro fs' e h
    unfold dump_database
    rw [h]
  · intro fs' evs e h
    unfold upload_to_s3
    rw [h]
  · intro evs e h
    unfold delete_old_backups
    rw [h]
  · unfold perform_backup afterLoop
    split
    · exact foldl_attempts cfg denv uenv now cfg.databases ⟨fs, [], [], []⟩
    · exact foldl_attempts cfg denv uenv now cfg.databases ⟨fs, [], [], []⟩

theorem claim6_witness :
    dump_database_try ⟨"bkt", "backups", "/d", ["app"]⟩
        ⟨fun _ => false, fun _ => true⟩ ⟨2024, 1, 2, 3, 4, 5⟩ "app" []
      = ([("/d/app_2024-01-02T03:04:05.sql", FileContent.dump "app")], Except.error ())
    ∧ dump_database ⟨"bkt", "backups", "/d", ["app"]⟩
        ⟨fun _ => false, fun _ => true⟩ ⟨2024, 1, 2, 3, 4, 5⟩ "app" []
      = ([("/d/app_2024-01-02T03:04:05.sql", FileContent.dump "app")], none)
    ∧ (perform_backup ⟨"bkt", "backups", "/d", ["app"]⟩ ⟨fun _ => false, fun _ => true⟩
        ⟨fun _ => true⟩ ⟨Except.ok [], fun _ => true⟩ ⟨2024, 1, 2, 3, 4, 5⟩ []).dumpAttempts
      = ["app"] :=
  ⟨rfl,
    (claim6_stages_never_propagate ⟨"bkt", "backups", "/d", ["app"]⟩
      ⟨fun _ => false, fun _ => true⟩ ⟨fun _ => true⟩ ⟨Except.ok [], fun _ => true⟩
      ⟨2024, 1, 2, 3, 4, 5⟩ "app" "x" []).1 _ () rfl,
    (claim6_stages_never_propagate ⟨"bkt", "backups", "/d", ["app"]⟩
      ⟨fun _ => false, fun _ => true⟩ ⟨fun _ => true⟩ ⟨Except.ok [], fun _ => true⟩
      ⟨2024, 1, 2, 3, 4, 5⟩ "app" "x" []).2.2.2⟩

/-- Claim C2: a successful dump+compress returns the archive path and
leaves the filesystem with exactly one new file — the archive, containing
exactly one entry named after the original dump file's base name — and the
uncompressed dump file does not exist afterwards.  (The dump and archive
paths are fresh: they embed the current timestamp.) -/
theorem claim2_dump_creates_single_archive (cfg : Config) (env : DumpEnv) (now : DateTime)
    (db : String) (fs : FS)
    (h1 : env.mysqldumpOk db = true)
    (h2 : env.zipOk (zipPath cfg now db) = true)
    (h3 : fsLookup fs (sqlPath cfg now db) = none)
    (h4 : fsLookup fs (zipPath cfg now db) = none) :
    dump_database cfg env now db fs
      = (fs ++ [(zipPath cfg now db,
          FileContent.archive [basename (sqlPath cfg now db)])],
        some (zipPath cfg now db))
    ∧ fsLookup (fs ++ [(zipPath cfg now db,
          FileContent.archive [basename (sqlPath cfg now db)])]) (zipPath cfg now db)
        = some (FileContent.archive [basename (sqlPath cfg now db)])
    ∧ fsLookup (fs ++ [(zipPath cfg now db,
          FileContent.archive [basename (sqlPath cfg now db)])]) (sqlPath cfg now db)
        = none := by
  have hzs : zipPath cfg now db ≠ sqlPath cfg now db :=
    string_append_zip_ne (sqlPath cfg now db)
  have hsz : sqlPath cfg now db ≠ zipPath cfg now db := Ne.symm hzs
  have e1 : fsWrite fs (sqlPath cfg now db) (FileContent.dump db)
      = fs ++ [(sqlPath cfg now db, FileContent.dump db)] := by
    unfold fsWrite
    rw [fsLookup_none_filter fs _ h3]
  have e2 : fsWrite (fs ++ [(sqlPath cfg now db, FileContent.dump db)])
        (zipPath cfg now db) (FileContent.archive [basename (sqlPath cfg now db)])
      = fs ++ [(sqlPath cfg now db, FileContent.dump db)]
          ++ [(zipPath cfg now db, FileContent.archive [basename (sqlPath cfg now db)])] := by
    unfold fsWrite
    rw [List.filter_append, fsLookup_none_filter fs _ h4,
      List.filter_cons_of_pos (by simpa using hsz)]
    rfl
  have e3 : fsRemove (fs ++ [(sqlPath cfg now db, FileContent.dump db)]
        ++ [(zipPath cfg now db, FileContent.archive [basename (sqlPath cfg now db)])])
        (sqlPath cfg now db)
      = fs ++ [(zipPath cfg now db, FileContent.archive [basename (sqlPath cfg now db)])] := by
    unfold fsRemove
    rw [List.filter_append, List.filter_append, fsLookup_none_filter fs _ h3,
      List.filter_cons_of_neg (by simp), List.filter_cons_of_pos (by simpa using hzs)]
    simp
  have htry : dump_database_try cfg env now db fs
      = (fs ++ [(zipPath cfg now db, FileContent.archive [basename (sqlPath cfg now db)])],
        Except.ok (zipPath cfg now db)) := by
    unfold dump_database_try
    simp only [h1, h2, eq_self_iff_true, if_true]
    rw [e1, e2, e3]
  refine ⟨?_, fsLookup_append_singleton_self _ _ _ h4,
    fsLookup_append_singleton_other _ _ _ _ h3 hzs⟩
  unfold dump_database
  rw [htry]

theorem claim2_witness :
    (⟨fun _ => true, fun _ => true⟩ : DumpEnv).mysqldumpOk "app" = true
    ∧ (⟨fun _ => true, fun _ => true⟩ : DumpEnv).zipOk
        (zipPath ⟨"bkt", "backups", "/d", ["app"]⟩ ⟨2024, 1, 2, 3, 4, 5⟩ "app") = true
    ∧ fsLookup [] (sqlPath ⟨"bkt", "backups", "/d", ["app"]⟩ ⟨2024, 1, 2, 3, 4, 5⟩ "app")
        = none
    ∧ fsLookup [] (zipPath ⟨"bkt", "backups", "/d", ["app"]⟩ ⟨2024, 1, 2, 3, 4, 5⟩ "app")
        = none
    ∧ dump_database ⟨"bkt", "backups", "/d", ["app"]⟩ ⟨fun _ => true, fun _ => true⟩
        ⟨2024, 1, 2, 3, 4, 5⟩ "app" []
      = ([] ++ [(zipPath ⟨"bkt", "backups", "/d", ["app"]⟩ ⟨2024, 1, 2, 3, 4, 5⟩ "app",
          FileContent.archive [basename
            (sqlPath ⟨"bkt", "backups", "/d", ["app"]⟩ ⟨2024, 1, 2, 3, 4, 5⟩ "app")])],
        some (zipPath ⟨"bkt", "backups", "/d", ["app"]⟩ ⟨2024, 1, 2, 3, 4, 5⟩ "app")) :=
  ⟨rfl, rfl, rfl, rfl,
    (claim2_dump_creates_single_archive ⟨"bkt", "backups", "/d", ["app"]⟩
      ⟨fun _ => true, fun _ => true⟩ ⟨2024, 1, 2, 3, 4, 5⟩ "app" [] rfl rfl rfl rfl).1⟩

/-- Claim C1: with the listing succeeding and every delete succeeding, the
pruner's delete calls are exactly the listed objects whose backup date is
strictly before `now - 14 days`, in listing order; all other objects get no
delete call; and when the key's embedded timestamp parses, that timestamp
is the backup date used. -/
theorem claim1_prune_deletes_exactly_stale (cfg : Config) (env : PruneEnv)
    (now : DateTime) (listing : List S3Object) (obj : S3Object)
    (hlist : env.listResult = Except.ok listing)
    (hok : ∀ k, env.deleteOk k = true)
    (hnd : (listing.map S3Object.key).Nodup)
    (hmem : obj ∈ listing) :
    delete_old_backups cfg env now
      = S3Event.list cfg.backupFolder :: (queuedForDeletion now listing).map S3Event.delete
    ∧ (obj.key ∈ queuedForDeletion now listing
        ↔ dtLt (backupDateOf obj) (retentionDate now) = true)
    ∧ ∀ d, strptimeLocal (tsCandidate obj.key) = some d → backupDateOf obj = d := by
  refine ⟨?_, ⟨?_, ?_⟩, ?_⟩
  · unfold delete_old_backups
    rw [delete_old_backups_try_ok cfg env now listing hlist,
      deleteLoop_all_ok env.deleteOk _ fun k _ => hok k]
  · intro hky
    unfold queuedForDeletion at hky
    obtain ⟨o', ho'mem, ho'key⟩ := List.mem_map.mp hky
    have hf := List.mem_filter.mp ho'mem
    have ho' : o' = obj :=
      List.inj_on_of_nodup_map hnd hf.1 hmem ho'key
    rw [← ho']
    exact hf.2
  · intro hlt
    unfold queuedForDeletion
    exact List.mem_map.mpr ⟨obj, List.mem_filter.mpr ⟨hmem, hlt⟩, rfl⟩
  · intro d hd
    unfold backupDateOf
    rw [hd]

theorem claim1_witness :
    (⟨Except.ok [⟨"backups/a_2024-01-01T00:00:00.sql.zip", ⟨⟨2024, 1, 1, 0, 0, 0⟩, some 0⟩⟩,
        ⟨"backups/b_2024-05-30T00:00:00.sql.zip", ⟨⟨2024, 5, 30, 0, 0, 0⟩, some 0⟩⟩],
      fun _ => true⟩ : PruneEnv).listResult
      = Except.ok [⟨"backups/a_2024-01-01T00:00:00.sql.zip", ⟨⟨2024, 1, 1, 0, 0, 0⟩, some 0⟩⟩,
        ⟨"backups/b_2024-05-30T00:00:00.sql.zip", ⟨⟨2024, 5, 30, 0, 0, 0⟩, some 0⟩⟩]
    ∧ (([⟨"backups/a_2024-01-01T00:00:00.sql.zip", ⟨⟨2024, 1, 1, 0, 0, 0⟩, some 0⟩⟩,
        ⟨"backups/b_2024-05-30T00:00:00.sql.zip", ⟨⟨2024, 5, 30, 0, 0, 0⟩, some 0⟩⟩]
          : List S3Object).map S3Object.key).Nodup
    ∧ delete_old_backups ⟨"bkt", "backups", "/d", []⟩
        ⟨Except.ok [⟨"backups/a_2024-01-01T00:00:00.sql.zip", ⟨⟨2024, 1, 1, 0, 0, 0⟩, some 0⟩⟩,
          ⟨"backups/b_2024-05-30T00:00:00.sql.zip", ⟨⟨2024, 5, 30, 0, 0, 0⟩, some 0⟩⟩],
          fun _ => true⟩ ⟨2024, 6, 1, 0, 0, 0⟩
      = S3Event.list "backups" :: (queuedForDeletion ⟨2024, 6, 1, 0, 0, 0⟩
          [⟨"backups/a_2024-01-01T00:00:00.sql.zip", ⟨⟨2024, 1, 1, 0, 0, 0⟩, some 0⟩⟩,
            ⟨"backups/b_2024-05-30T00:00:00.sql.zip", ⟨⟨2024, 5, 30, 0, 0, 0⟩, some 0⟩⟩]).map
          S3Event.delete
    ∧ ((⟨"backups/a_2024-01-01T00:00:00.sql.zip",
          ⟨⟨2024, 1, 1, 0, 0, 0⟩, some 0⟩⟩ : S3Object).key
        ∈ queuedForDeletion ⟨2024, 6, 1, 0, 0, 0⟩
          [⟨"backups/a_2024-01-01T00:00:00.sql.zip", ⟨⟨2024, 1, 1, 0, 0, 0⟩, some 0⟩⟩,
            ⟨"backups/b_2024-05-30T00:00:00.sql.zip", ⟨⟨2024, 5, 30, 0, 0, 0⟩, some 0⟩⟩]
        ↔ dtLt (backupDateOf ⟨"backups/a_2024-01-01T00:00:00.sql.zip",
            ⟨⟨2024, 1, 1, 0, 0, 0⟩, some 0⟩⟩)
            (retentionDate ⟨2024, 6, 1, 0, 0, 0⟩) = true) :=
  ⟨rfl, by decide,
    (claim1_prune_deletes_exactly_stale ⟨"bkt", "backups", "/d", []⟩
      ⟨Except.ok [⟨"backups/a_2024-01-01T00:00:00.sql.zip", ⟨⟨2024, 1, 1, 0, 0, 0⟩, some 0⟩⟩,
        ⟨"backups/b_2024-05-30T00:00:00.sql.zip", ⟨⟨2024, 5, 30, 0, 0, 0⟩, some 0⟩⟩],
        fun _ => true⟩ ⟨2024, 6, 1, 0, 0, 0⟩
      [⟨"backups/a_2024-01-01T00:00:00.sql.zip", ⟨⟨2024, 1, 1, 0, 0, 0⟩, some 0⟩⟩,
        ⟨"backups/b_2024-05-30T00:00:00.sql.zip", ⟨⟨2024, 5, 30, 0, 0, 0⟩, some 0⟩⟩]
      ⟨"backups/a_2024-01-01T00:00:00.sql.zip", ⟨⟨2024, 1, 1, 0, 0, 0⟩, some 0⟩⟩
      rfl (fun _ => rfl) (by decide) (by decide)).1,
    (claim1_prune_deletes_exactly_stale ⟨"bkt", "backups", "/d", []⟩
      ⟨Except.ok [⟨"backups/a_2024-01-01T00:00:00.sql.zip", ⟨⟨2024, 1, 1, 0, 0, 0⟩, some 0⟩⟩,
        ⟨"backups/b_2024-05-30T00:00:00.sql.zip", ⟨⟨2024, 5, 30, 0, 0, 0⟩, some 0⟩⟩],
        fun _ => true⟩ ⟨2024, 6, 1, 0, 0, 0⟩
      [⟨"backups/a_2024-01-01T00:00:00.sql.zip", ⟨⟨2024, 1, 1, 0, 0, 0⟩, some 0⟩⟩,
        ⟨"backups/b_2024-05-30T00:00:00.sql.zip", ⟨⟨2024, 5, 30, 0, 0, 0⟩, some 0⟩⟩]
      ⟨"backups/a_2024-01-01T00:00:00.sql.zip", ⟨⟨2024, 1, 1, 0, 0, 0⟩, some 0⟩⟩
      rfl (fun _ => rfl) (by decide) (by decide)).2.1⟩

/-- Claim C8 as frozen is false on this code: with two stale objects queued
and the first `delete_object` call raising, the pruner makes no deletion
attempt for the second queued key — the error aborts the rest of the loop
(it is only caught at the boundary of the whole pruning routine). -/
theorem claim8_counterexample :
    queuedForDeletion ⟨2024, 6, 1, 0, 0, 0⟩
        [⟨"backups/a_2024-01-01T00:00:00.sql.zip", ⟨⟨2024, 1, 1, 0, 0, 0⟩, some 0⟩⟩,
          ⟨"backups/b_2024-01-02T00:00:00.sql.zip", ⟨⟨2024, 1, 2, 0, 0, 0⟩, some 0⟩⟩]
      = ["backups/a_2024-01-01T00:00:00.sql.zip", "backups/b_2024-01-02T00:00:00.sql.zip"]
    ∧ delete_old_backups ⟨"bkt", "backups", "/d", []⟩
        ⟨Except.ok [⟨"backups/a_2024-01-01T00:00:00.sql.zip", ⟨⟨2024, 1, 1, 0, 0, 0⟩, some 0⟩⟩,
          ⟨"backups/b_2024-01-02T00:00:00.sql.zip", ⟨⟨2024, 1, 2, 0, 0, 0⟩, some 0⟩⟩],
          fun k => k != "backups/a_2024-01-01T00:00:00.sql.zip"⟩ ⟨2024, 6, 1, 0, 0, 0⟩
      = [S3Event.list "backups", S3Event.delete "backups/a_2024-01-01T00:00:00.sql.zip"]
    ∧ S3Event.delete "backups/b_2024-01-02T00:00:00.sql.zip"
        ∉ delete_old_backups ⟨"bkt", "backups", "/d", []⟩
          ⟨Except.ok [⟨"backups/a_2024-01-01T00:00:00.sql.zip", ⟨⟨2024, 1, 1, 0, 0, 0⟩, some 0⟩⟩,
            ⟨"backups/b_2024-01-02T00:00:00.sql.zip", ⟨⟨2024, 1, 2, 0, 0, 0⟩, some 0⟩⟩],
            fun k => k != "backups/a_2024-01-01T00:00:00.sql.zip"⟩ ⟨2024, 6, 1, 0, 0, 0⟩ := by
  refine ⟨by decide, by decide, by decide⟩

/-- Claim C8 (amended): listing and deletion errors are caught (and logged)
at the boundary of the whole pruning routine, so they never propagate to
the caller — but an error while deleting one queued object aborts the
deletion attempts for all later queued objects: the delete calls made are
exactly the successful prefix plus the failing one. -/
theorem claim8_amended_delete_error_aborts_rest (cfg : Config) (env : PruneEnv)
    (now : DateTime) (listing : List S3Object) (ks₁ : List String) (k : String)
    (ks₂ : List String)
    (hlist : env.listResult = Except.ok listing)
    (hq : queuedForDeletion now listing = ks₁ ++ k :: ks₂)
    (h1 : ∀ x ∈ ks₁, env.deleteOk x = true)
    (h2 : env.deleteOk k = false) :
    delete_old_backups cfg env now
      = S3Event.list cfg.backupFolder :: (ks₁ ++ [k]).map S3Event.delete
    ∧ (delete_old_backups_try cfg env now).2 = Except.error () := by
  have hrw := delete_old_backups_try_ok cfg env now listing hlist
  have hdl := deleteLoop_first_failure env.deleteOk ks₁ k ks₂ h1 h2
  constructor
  · unfold delete_old_backups
    rw [hrw, hq, hdl]
  · rw [hrw, hq, hdl]

theorem claim8_amended_witness :
    (⟨Except.ok [⟨"backups/a_2024-01-01T00:00:00.sql.zip", ⟨⟨2024, 1, 1, 0, 0, 0⟩, some 0⟩⟩,
        ⟨"backups/b_2024-01-02T00:00:00.sql.zip", ⟨⟨2024, 1, 2, 0, 0, 0⟩, some 0⟩⟩],
      fun k => k != "backups/a_2024-01-01T00:00:00.sql.zip"⟩ : PruneEnv).listResult
      = Except.ok [⟨"backups/a_2024-01-01T00:00:00.sql.zip", ⟨⟨2024, 1, 1, 0, 0, 0⟩, some 0⟩⟩,
        ⟨"backups/b_2024-01-02T00:00:00.sql.zip", ⟨⟨2024, 1, 2, 0, 0, 0⟩, some 0⟩⟩]
    ∧ queuedForDeletion ⟨2024, 6, 1, 0, 0, 0⟩
        [⟨"backups/a_2024-01-01T00:00:00.sql.zip", ⟨⟨2024, 1, 1, 0, 0, 0⟩, some 0⟩⟩,
          ⟨"backups/b_2024-01-02T00:00:00.sql.zip", ⟨⟨2024, 1, 2, 0, 0, 0⟩, some 0⟩⟩]
      = [] ++ "backups/a_2024-01-01T00:00:00.sql.zip"
          :: ["backups/b_2024-01-02T00:00:00.sql.zip"]
    ∧ delete_old_backups ⟨"bkt", "backups", "/d", []⟩
        ⟨Except.ok [⟨"backups/a_2024-01-01T00:00:00.sql.zip", ⟨⟨2024, 1, 1, 0, 0, 0⟩, some 0⟩⟩,
          ⟨"backups/b_2024-01-02T00:00:00.sql.zip", ⟨⟨2024, 1, 2, 0, 0, 0⟩, some 0⟩⟩],
          fun k => k != "backups/a_2024-01-01T00:00:00.sql.zip"⟩ ⟨2024, 6, 1, 0, 0, 0⟩
      = S3Event.list "backups"
          :: (([] ++ ["backups/a_2024-01-01T00:00:00.sql.zip"]).map S3Event.delete)
    ∧ (delete_old_backups_try ⟨"bkt", "backups", "/d", []⟩
        ⟨Except.ok [⟨"backups/a_2024-01-01T00:00:00.sql.zip", ⟨⟨2024, 1, 1, 0, 0, 0⟩, some 0⟩⟩,
          ⟨"backups/b_2024-01-02T00:00:00.sql.zip", ⟨⟨2024, 1, 2, 0, 0, 0⟩, some 0⟩⟩],
          fun k => k != "backups/a_2024-01-01T00:00:00.sql.zip"⟩ ⟨2024, 6, 1, 0, 0, 0⟩).2
      = Except.error () :=
  ⟨rfl, by decide,
    (claim8_amended_delete_error_aborts_rest ⟨"bkt", "backups", "/d", []⟩
      ⟨Except.ok [⟨"backups/a_2024-01-01T00:00:00.sql.zip", ⟨⟨2024, 1, 1, 0, 0, 0⟩, some 0⟩⟩,
        ⟨"backups/b_2024-01-02T00:00:00.sql.zip", ⟨⟨2024, 1, 2, 0, 0, 0⟩, some 0⟩⟩],
        fun k => k != "backups/a_2024-01-01T00:00:00.sql.zip"⟩ ⟨2024, 6, 1, 0, 0, 0⟩
      [⟨"backups/a_2024-01-01T00:00:00.sql.zip", ⟨⟨2024, 1, 1, 0, 0, 0⟩, some 0⟩⟩,
        ⟨"backups/b_2024-01-02T00:00:00.sql.zip", ⟨⟨2024, 1, 2, 0, 0, 0⟩, some 0⟩⟩]
      [] "backups/a_2024-01-01T00:00:00.sql.zip" ["backups/b_2024-01-02T00:00:00.sql.zip"]
      rfl (by decide) (by decide) (by decide)).1,
    (claim8_amended_delete_error_aborts_rest ⟨"bkt", "backups", "/d", []⟩
      ⟨Except.ok [⟨"backups/a_2024-01-01T00:00:00.sql.zip", ⟨⟨2024, 1, 1, 0, 0, 0⟩, some 0⟩⟩,
        ⟨"backups/b_2024-01-02T00:00:00.sql.zip", ⟨⟨2024, 1, 2, 0, 0, 0⟩, some 0⟩⟩],
        fun k => k != "backups/a_2024-01-01T00:00:00.sql.zip"⟩ ⟨2024, 6, 1, 0, 0, 0⟩
      [⟨"backups/a_2024-01-01T00:00:00.sql.zip", ⟨⟨2024, 1, 1, 0, 0, 0⟩, some 0⟩⟩,
        ⟨"backups/b_2024-01-02T00:00:00.sql.zip", ⟨⟨2024, 1, 2, 0, 0, 0⟩, some 0⟩⟩]
      [] "backups/a_2024-01-01T00:00:00.sql.zip" ["backups/b_2024-01-02T00:00:00.sql.zip"]
      rfl (by decide) (by decide) (by decide)).2⟩

/-- Claim C3: the orchestrator invokes the retention pruner if and only if
at least one per-database dump produced an artifact; when every dump fails,
the pruner is never invoked, no S3 call at all is made (in particular no
list and no delete call), and the warning is logged instead. -/
theorem claim3_prune_iff_artifact (cfg : Config) (denv : DumpEnv) (uenv : UploadEnv)
    (penv : PruneEnv) (now : DateTime) (fs : FS) :
    ((perform_backup cfg denv uenv penv now fs).pruneInvoked = true
      ↔ ∃ db ∈ cfg.databases, dumpArtifact cfg denv now db ≠ none)
    ∧ ((∀ db ∈ cfg.databases, dumpArtifact cfg denv now db = none) →
      (perform_backup cfg denv uenv penv now fs).pruneInvoked = false
      ∧ (perform_backup cfg denv uenv penv now fs).warned = true
      ∧ (perform_backup cfg denv uenv penv now fs).events = []) := by
  have hgen : (cfg.databases.foldl (backupStep cfg denv uenv now) ⟨fs, [], [], []⟩).generated
      = cfg.databases.filterMap (fun db => dumpArtifact cfg denv now db) := by
    rw [foldl_generated]
    rfl
  constructor
  · unfold perform_backup afterLoop
    by_cases he : (cfg.databases.foldl (backupStep cfg denv uenv now)
        ⟨fs, [], [], []⟩).generated.isEmpty = true
    · rw [if_pos he]
      have hnil : cfg.databases.filterMap (fun db => dumpArtifact cfg denv now db) = [] := by
        rw [← hgen]
        exact List.isEmpty_iff.mp he
      have hall := List.filterMap_eq_nil_iff.mp hnil
      constructor
      · intro hfalse
        exact absurd hfalse (by simp)
      · rintro ⟨db, hdb, hne⟩
        exact absurd (hall db hdb) hne
    · rw [if_neg he]
      have hne : cfg.databases.filterMap (fun db => dumpArtifact cfg denv now db) ≠ [] := by
        intro e
        exact he (List.isEmpty_iff.mpr (hgen.trans e))
      constructor
      · intro _
        by_contra hno
        push_neg at hno
        exact hne (List.filterMap_eq_nil_iff.mpr hno)
      · intro _
        rfl
  · intro hall
    have he : (cfg.databases.foldl (backupStep cfg denv uenv now)
        ⟨fs, [], [], []⟩).generated.isEmpty = true := by
      rw [List.isEmpty_iff, hgen]
      exact List.filterMap_eq_nil_iff.mpr hall
    unfold perform_backup afterLoop
    rw [if_pos he]
    exact ⟨rfl, rfl, foldl_events_all_none cfg denv uenv now cfg.databases
      ⟨fs, [], [], []⟩ hall⟩

theorem claim3_witness :
    (∀ db ∈ (⟨"bkt", "backups", "/d", ["app", "billing"]⟩ : Config).databases,
      dumpArtifact ⟨"bkt", "backups", "/d", ["app", "billing"]⟩
        ⟨fun _ => false, fun _ => true⟩ ⟨2024, 1, 2, 3, 4, 5⟩ db = none)
    ∧ ((perform_backup ⟨"bkt", "backups", "/d", ["app", "billing"]⟩
        ⟨fun _ => false, fun _ => true⟩ ⟨fun _ => true⟩ ⟨Except.ok [], fun _ => true⟩
        ⟨2024, 1, 2, 3, 4, 5⟩ []).pruneInvoked = false
      ∧ (perform_backup ⟨"bkt", "backups", "/d", ["app", "billing"]⟩
          ⟨fun _ => false, fun _ => true⟩ ⟨fun _ => true⟩ ⟨Except.ok [], fun _ => true⟩
          ⟨2024, 1, 2, 3, 4, 5⟩ []).warned = true
      ∧ (perform_backup ⟨"bkt", "backups", "/d", ["app", "billing"]⟩
          ⟨fun _ => false, fun _ => true⟩ ⟨fun _ => true⟩ ⟨Except.ok [], fun _ => true⟩
          ⟨2024, 1, 2, 3, 4, 5⟩ []).events = []) :=
  ⟨by decide,
    (claim3_prune_iff_artifact ⟨"bkt", "backups", "/d", ["app", "billing"]⟩
      ⟨fun _ => false, fun _ => true⟩ ⟨fun _ => true⟩ ⟨Except.ok [], fun _ => true⟩
      ⟨2024, 1, 2, 3, 4, 5⟩ []).2 (by decide)⟩

/-- Claim C9: for every database name (a MySQL identifier, so containing no
path separator) and dump time, the artifact's file name is exactly
`{database}_{timestamp}.sql.zip` with the timestamp in the fixed
`strftime` format, and the remote key computed by the uploader is exactly
`{configured folder}/{that file name}` (the configured folder being
non-empty with no trailing slash). -/
theorem claim9_artifact_naming (cfg : Config) (now : DateTime) (db : String)
    (hdb : '/' ∉ db.data)
    (hf1 : cfg.backupFolder ≠ "")
    (hf2 : endsWithSlash cfg.backupFolder = false) :
    basename (zipPath cfg now db) = db ++ "_" ++ formatDT now ++ ".sql.zip"
    ∧ s3PathOf cfg (zipPath cfg now db)
        = cfg.backupFolder ++ "/" ++ (db ++ "_" ++ formatDT now ++ ".sql.zip") := by
  have hnos : '/' ∉ (db ++ "_" ++ formatDT now ++ ".sql.zip").data := by
    intro hm
    simp only [String.data_append] at hm
    rcases List.mem_append.mp hm with hm | hm
    · rcases List.mem_append.mp hm with hm | hm
      · rcases List.mem_append.mp hm with hm | hm
        · exact hdb hm
        · exact absurd hm (by decide)
      · exact formatDT_no_slash now hm
    · exact absurd hm (by decide)
  have hsfx : db ++ "_" ++ formatDT now ++ ".sql" ++ ".zip"
      = db ++ "_" ++ formatDT now ++ ".sql.zip" := by
    rw [String.append_assoc]
    rfl
  have hfz_data : '/' ∉ (db ++ "_" ++ formatDT now ++ ".sql" ++ ".zip").data := by
    rw [hsfx]
    exact hnos
  have hf_noslash : '/' ∉ (db ++ "_" ++ formatDT now ++ ".sql").data := by
    intro hm
    apply hfz_data
    rw [String.data_append]
    exact List.mem_append.mpr (Or.inl hm)
  have hzip_eq : zipPath cfg now db
      = pathJoin cfg.dumpDir (db ++ "_" ++ formatDT now ++ ".sql" ++ ".zip") := by
    unfold zipPath sqlPath
    exact pathJoin_append_right cfg.dumpDir _ ".zip"
      (startsWithSlash_false_of_not_mem _ hf_noslash)
      (startsWithSlash_false_of_not_mem _ hfz_data)
  have hb : basename (zipPath cfg now db) = db ++ "_" ++ formatDT now ++ ".sql.zip" := by
    rw [hzip_eq, basename_pathJoin cfg.dumpDir _ hfz_data, hsfx]
  refine ⟨hb, ?_⟩
  unfold s3PathOf
  rw [hb]
  exact pathJoin_of_plain cfg.backupFolder _ hf1 hf2
    (startsWithSlash_false_of_not_mem _ hnos)

theorem claim9_witness :
    ('/' ∉ ("mydb" : String).data)
    ∧ (⟨"bkt", "backups", "/tmp/dumps", []⟩ : Config).backupFolder ≠ ""
    ∧ endsWithSlash (⟨"bkt", "backups", "/tmp/dumps", []⟩ : Config).backupFolder = false
    ∧ basename (zipPath ⟨"bkt", "backups", "/tmp/dumps", []⟩ ⟨2024, 3, 5, 7, 8, 9⟩ "mydb")
        = "mydb" ++ "_" ++ formatDT ⟨2024, 3, 5, 7, 8, 9⟩ ++ ".sql.zip"
    ∧ s3PathOf ⟨"bkt", "backups", "/tmp/dumps", []⟩
        (zipPath ⟨"bkt", "backups", "/tmp/dumps", []⟩ ⟨2024, 3, 5, 7, 8, 9⟩ "mydb")
        = "backups" ++ "/" ++ ("mydb" ++ "_" ++ formatDT ⟨2024, 3, 5, 7, 8, 9⟩ ++ ".sql.zip") :=
  ⟨by decide, by decide, by decide,
    (claim9_artifact_naming ⟨"bkt", "backups", "/tmp/dumps", []⟩ ⟨2024, 3, 5, 7, 8, 9⟩
      "mydb" (by decide) (by decide) (by decide)).1,
    (claim9_artifact_naming ⟨"bkt", "backups", "/tmp/dumps", []⟩ ⟨2024, 3, 5, 7, 8, 9⟩
      "mydb" (by decide) (by decide) (by decide)).2⟩

/-- Claim C10 as frozen is false on this code: its final clause says a key
containing no underscore always fails parsing and takes the last-modified
fallback, but for a no-underscore key `split("_")[-1]` is the whole key, so
a key like `"2024-01-01T00:00:00.sql.zip"` parses successfully and the
embedded timestamp — not the fallback — is used. -/
theorem claim10_counterexample :
    ('_' ∉ ("2024-01-01T00:00:00.sql.zip" : String).data)
    ∧ strptimeLocal (tsCandidate "2024-01-01T00:00:00.sql.zip")
        = some ⟨2024, 1, 1, 0, 0, 0⟩
    ∧ backupDateOf ⟨"2024-01-01T00:00:00.sql.zip", ⟨⟨2030, 5, 5, 5, 5, 5⟩, some 0⟩⟩
        = ⟨2024, 1, 1, 0, 0, 0⟩
    ∧ backupDateOf ⟨"2024-01-01T00:00:00.sql.zip", ⟨⟨2030, 5, 5, 5, 5, 5⟩, some 0⟩⟩
        ≠ stripTz ⟨⟨2030, 5, 5, 5, 5, 5⟩, some 0⟩ := by
  refine ⟨by decide, by decide, by decide, by decide⟩

/-- Claim C10 (amended): the extraction takes the substring after the last
underscore of the full key and removes every occurrence of `".sql.zip"`
from it, so (i) a key `{p}/{name}_{ts}.sql.zip` with `ts` underscore-free
and valid parses to `ts` even when `{p}` or `{name}` contains underscores,
and (ii) a key with no underscore at all uses the entire key (with all
`".sql.zip"` occurrences removed) as the parse candidate, taking the
last-modified fallback exactly when that candidate is not a valid
timestamp. -/
theorem claim10_amended_extraction (p name ts key2 : String) (d : DateTime)
    (lm lm2 : AwareTime)
    (hts : '_' ∉ ts.data)
    (hparse : strptimeLocal ts = some d)
    (hk2 : '_' ∉ key2.data)
    (hk2fail : strptimeLocal (tsCandidate key2) = none) :
    backupDateOf ⟨p ++ "/" ++ name ++ "_" ++ ts ++ ".sql.zip", lm⟩ = d
    ∧ tsCandidate key2 = ⟨removeSqlZip key2.data⟩
    ∧ backupDateOf ⟨key2, lm2⟩ = stripTz lm2 := by
  have hdot : '.' ∉ ts.data := (strptime_no_dot_underscore hparse).1
  have hcand : tsCandidate (p ++ "/" ++ name ++ "_" ++ ts ++ ".sql.zip") = ts := by
    unfold tsCandidate
    have h1 : afterLast '_' (p ++ "/" ++ name ++ "_" ++ ts ++ ".sql.zip").data
        = ts.data ++ (".sql.zip" : String).data := by
      have hset : (p ++ "/" ++ name ++ "_" ++ ts ++ ".sql.zip").data
          = (p.data ++ '/' :: name.data) ++ '_' :: (ts.data ++ (".sql.zip" : String).data) := by
        simp [String.data_append]
      rw [hset, afterLast_append_sep]
      apply afterLast_of_not_mem
      intro hm
      rcases List.mem_append.mp hm with hm | hm
      · exact hts hm
      · exact absurd hm (by decide)
    rw [h1, removeSqlZip_append_no_dot ts.data _ hdot, removeSqlZip_sqlzip,
      List.append_nil, string_eta]
  unfold backupDateOf
  refine ⟨?_, ?_, ?_⟩
  · rw [hcand, hparse]
  · unfold tsCandidate
    rw [afterLast_of_not_mem '_' key2.data hk2]
  · rw [hk2fail]

theorem claim10_amended_witness :
    ('_' ∉ ("2024-01-02T03:04:05" : String).data)
    ∧ strptimeLocal "2024-01-02T03:04:05" = some ⟨2024, 1, 2, 3, 4, 5⟩
    ∧ ('_' ∉ ("plainfile.sql.zip" : String).data)
    ∧ strptimeLocal (tsCandidate "plainfile.sql.zip") = none
    ∧ backupDateOf ⟨"backups" ++ "/" ++ "my_db" ++ "_" ++ "2024-01-02T03:04:05" ++ ".sql.zip",
        ⟨⟨2030, 1, 1, 1, 1, 1⟩, some 0⟩⟩ = ⟨2024, 1, 2, 3, 4, 5⟩
    ∧ tsCandidate "plainfile.sql.zip" = ⟨removeSqlZip ("plainfile.sql.zip" : String).data⟩
    ∧ backupDateOf ⟨"plainfile.sql.zip", ⟨⟨2031, 2, 2, 2, 2, 2⟩, some 60⟩⟩
        = stripTz ⟨⟨2031, 2, 2, 2, 2, 2⟩, some 60⟩ :=
  ⟨by decide, by decide, by decide, by decide,
    (claim10_amended_extraction "backups" "my_db" "2024-01-02T03:04:05" "plainfile.sql.zip"
      ⟨2024, 1, 2, 3, 4, 5⟩ ⟨⟨2030, 1, 1, 1, 1, 1⟩, some 0⟩ ⟨⟨2031, 2, 2, 2, 2, 2⟩, some 60⟩
      (by decide) (by decide) (by decide) (by decide)).1,
    (claim10_amended_extraction "backups" "my_db" "2024-01-02T03:04:05" "plainfile.sql.zip"
      ⟨2024, 1, 2, 3, 4, 5⟩ ⟨⟨2030, 1, 1, 1, 1, 1⟩, some 0⟩ ⟨⟨2031, 2, 2, 2, 2, 2⟩, some 60⟩
      (by decide) (by decide) (by decide) (by decide)).2.1,
    (claim10_amended_extraction "backups" "my_db" "2024-01-02T03:04:05" "plainfile.sql.zip"
      ⟨2024, 1, 2, 3, 4, 5⟩ ⟨⟨2030, 1, 1, 1, 1, 1⟩, some 0⟩ ⟨⟨2031, 2, 2, 2, 2, 2⟩, some 60⟩
      (by decide) (by decide) (by decide) (by decide)).2.2⟩

end MysqlBackup
